import Mathlib

/-!
Verification development for the influencer-brand analysis pipeline.

The repository contains two parallel AI-service implementations
(utils/aiService.js and config/ai.js) and two parallel controllers
(controllers/analyzeController.js and controllers/influencerController.js).
This file embeds, faithfully to the JavaScript source:

  - a model of JavaScript values (JSValue) with truthiness, property access,
    string conversion and numeric coercion as the cited code uses them.
    JavaScript numbers are modelled as integers (every number appearing in
    the claims and in the code paths under study is integer-valued); NaN is
    modelled as Option.none where it can arise.
  - the greedy brace extraction and JSON.parse step of parseAIResponse
    (JSON numbers are likewise restricted to integers).
  - the utils/aiService.js normalizer (validateSentiment, validateScore,
    validateAlignment, validateKeywords, validateQuote,
    validateContentAnalysis, validateRecommendations, validateRiskFactors,
    validateOpportunities, validateEngagementInsights, parseAIResponse)
    and its fallback generateMockResponse.
  - the config/ai.js normalizer (normalize3 / parseAIResponse3) and its
    fallback getMockAIResponse.
  - the retry loop of makeOpenAIRequest, with the HTTP call abstracted as a
    function from attempt number to outcome and the backoff sleeps recorded
    as data.
  - the controller aggregation: calculateSentimentDistribution (identical in
    both controllers), the per-post contentAnalysis assembly, and the
    engagement summary of both controllers.

Randomness in the fallback generators is passed in as explicit parameters.
-/

namespace AgenticAI

/-- Model of a JavaScript value as produced by JSON.parse and handed around
the normalizers. Numbers are modelled as integers. -/
inductive JSValue where
  | null
  | undefined
  | bool (b : Bool)
  | num (n : Int)
  | str (s : String)
  | arr (xs : List JSValue)
  | obj (fields : List (String × JSValue))

/-- JavaScript truthiness (NaN excluded: numbers are integer-modelled). -/
def JSValue.truthy : JSValue → Bool
  | .null => false
  | .undefined => false
  | .bool b => b
  | .num n => n != 0
  | .str s => !s.isEmpty
  | .arr _ => true
  | .obj _ => true

/-- The value of the expression a || b in JavaScript. -/
def jsOr (a b : JSValue) : JSValue :=
  if a.truthy then a else b

/-- Property access v.k / v["k"] for receivers on which it does not throw.
On an object it looks the key up; on booleans, numbers, strings and arrays
it yields undefined (none of the accessed keys exist on those wrappers).
JavaScript throws a TypeError when the receiver is null or undefined; every
call site below branches on those two cases first, exactly where the source
can receive them. -/
def JSValue.get (v : JSValue) (k : String) : JSValue :=
  match v with
  | .obj fs => (fs.lookup k).getD JSValue.undefined
  | _ => JSValue.undefined

/-- Whitespace as skipped by JSON.parse and trimmed by parseInt. -/
def isWsCh (c : Char) : Bool :=
  c == ' ' || c == '\t' || c == '\n' || c == '\r'

/-- Drop leading whitespace from a character list. -/
def skipWs : List Char → List Char
  | [] => []
  | c :: cs => if isWsCh c then skipWs cs else c :: cs

/-- Read a maximal run of leading decimal digits as a number; none if there
is no leading digit. Also returns the rest of the input. -/
def parseDigits (cs : List Char) : Option (Nat × List Char) :=
  let ds := cs.takeWhile Char.isDigit
  if ds.isEmpty then none
  else some (ds.foldl (fun a c => a * 10 + (c.toNat - 48)) 0, cs.drop ds.length)

/-- JavaScript parseInt on a string: skip leading whitespace, optional sign,
then a maximal run of decimal digits, ignoring everything after them; NaN
(here none) when no digit is found. The 0x hex prefix form is not modelled. -/
def jsParseInt (s : String) : Option Int :=
  match skipWs s.data with
  | '-' :: rest => (parseDigits rest).map (fun p => -(p.1 : Int))
  | '+' :: rest => (parseDigits rest).map (fun p => (p.1 : Int))
  | cs => (parseDigits cs).map (fun p => (p.1 : Int))

mutual
/-- JavaScript ToString as parseInt applies it to a non-string argument. -/
def jsToString : JSValue → String
  | .null => "null"
  | .undefined => "undefined"
  | .bool b => if b then "true" else "false"
  | .num n => toString n
  | .str s => s
  | .arr xs => jsArrJoin xs
  | .obj _ => "[object Object]"

/-- Array.prototype.toString: elements joined with commas, null and
undefined elements rendered as the empty string. -/
def jsArrJoin : List JSValue → String
  | [] => ""
  | x :: xs =>
    let hd := match x with
      | JSValue.null => ""
      | JSValue.undefined => ""
      | v => jsToString v
    match xs with
    | [] => hd
    | _ => hd ++ "," ++ jsArrJoin xs
end

/-- JavaScript Number() conversion of a trimmed string, integer literals
only: the empty (all-whitespace) string is 0, an optionally signed digit
string is its value, anything else is NaN (none). -/
def jsStrToNumber (s : String) : Option Int :=
  match skipWs s.data with
  | [] => some 0
  | '-' :: rest =>
    match parseDigits rest with
    | some (n, tail) => if (skipWs tail).isEmpty then some (-(n : Int)) else none
    | none => none
  | '+' :: rest =>
    match parseDigits rest with
    | some (n, tail) => if (skipWs tail).isEmpty then some ((n : Int)) else none
    | none => none
  | cs =>
    match parseDigits cs with
    | some (n, tail) => if (skipWs tail).isEmpty then some ((n : Int)) else none
    | none => none

/-- JavaScript ToNumber, as Math.min / Math.max apply it; none models NaN. -/
def jsToNumber : JSValue → Option Int
  | .null => some 0
  | .undefined => none
  | .bool b => some (if b then 1 else 0)
  | .num n => some n
  | .str s => jsStrToNumber s
  | .arr xs => jsStrToNumber (jsArrJoin xs)
  | .obj _ => none

/-- parseInt applied to an arbitrary value: JavaScript stringifies the
argument first; for an integer-valued number that round-trips to the same
integer, taken as a direct case here. -/
def jsParseIntVal : JSValue → Option Int
  | .num n => some n
  | v => jsParseInt (jsToString v)

/-- Does character list sub occur as a prefix of hay. -/
def chStartsWith : List Char → List Char → Bool
  | [], _ => true
  | _ :: _, [] => false
  | a :: as, b :: bs => a == b && chStartsWith as bs

/-- Does character list sub occur somewhere inside hay. -/
def chOccursIn (sub : List Char) : List Char → Bool
  | [] => sub.isEmpty
  | b :: bs => chStartsWith sub (b :: bs) || chOccursIn sub bs

/-- JavaScript String.prototype.includes. -/
def strIncludes (s sub : String) : Bool :=
  chOccursIn sub.data s.data

/-- String.prototype.toLowerCase, character by character. -/
def lowerStr (s : String) : String :=
  String.mk (s.data.map Char.toLower)

/-- Case-insensitive containment: a.toLowerCase().includes(b.toLowerCase()). -/
def lowerIncludes (s sub : String) : Bool :=
  strIncludes (lowerStr s) (lowerStr sub)

/-- Math.round(num/den) for non-negative integers: round half up, computed
exactly as floor((num + den/2) / den) = (2*num + den) / (2*den). -/
def jsRoundDiv (num den : Nat) : Nat :=
  (2 * num + den) / (2 * den)

/-- JSON string literal body: input starts after the opening quote; returns
the decoded string and the input after the closing quote. The \uXXXX escape
form is not modelled. -/
def parseStrLit : List Char → List Char → Option (String × List Char)
  | [], _ => none
  | '\"' :: rest, acc => some (String.mk acc.reverse, rest)
  | '\\' :: e :: rest, acc =>
    match e with
    | '\"' => parseStrLit rest ('\"' :: acc)
    | '\\' => parseStrLit rest ('\\' :: acc)
    | '/' => parseStrLit rest ('/' :: acc)
    | 'n' => parseStrLit rest ('\n' :: acc)
    | 't' => parseStrLit rest ('\t' :: acc)
    | 'r' => parseStrLit rest ('\r' :: acc)
    | 'b' => parseStrLit rest (Char.ofNat 8 :: acc)
    | 'f' => parseStrLit rest (Char.ofNat 12 :: acc)
    | _ => none
  | c :: rest, acc => parseStrLit rest (c :: acc)

/-- JSON integer literal with lookahead: a fraction or exponent marks a
non-integer number, which this integer-restricted model rejects. -/
def parseJsonInt (cs : List Char) : Option (Int × List Char) :=
  let core : List Char → Option (Nat × List Char) := fun l =>
    match parseDigits l with
    | some (n, tail) =>
      match tail with
      | c :: _ => if c == '.' || c == 'e' || c == 'E' then none else some (n, tail)
      | [] => some (n, tail)
    | none => none
  match cs with
  | '-' :: rest => (core rest).map (fun p => (-(p.1 : Int), p.2))
  | _ => (core cs).map (fun p => ((p.1 : Int), p.2))

mutual
/-- One JSON value, by recursion on an explicit fuel bound. -/
def parseValue : Nat → List Char → Option (JSValue × List Char)
  | 0, _ => none
  | Nat.succ fuel, cs =>
    match skipWs cs with
    | [] => none
    | '\"' :: rest => (parseStrLit rest []).map (fun p => (JSValue.str p.1, p.2))
    | '\x7b' :: rest =>
      (match skipWs rest with
       | '\x7d' :: r2 => some (JSValue.obj [], r2)
       | _ => (parseMembers fuel rest).map (fun p => (JSValue.obj p.1, p.2)))
    | '[' :: rest =>
      (match skipWs rest with
       | ']' :: r2 => some (JSValue.arr [], r2)
       | _ => (parseElems fuel rest).map (fun p => (JSValue.arr p.1, p.2)))
    | 't' :: 'r' :: 'u' :: 'e' :: rest => some (JSValue.bool true, rest)
    | 'f' :: 'a' :: 'l' :: 's' :: 'e' :: rest => some (JSValue.bool false, rest)
    | 'n' :: 'u' :: 'l' :: 'l' :: rest => some (JSValue.null, rest)
    | other => (parseJsonInt other).map (fun p => (JSValue.num p.1, p.2))

/-- Members of a JSON object, after the opening brace, at least one member. -/
def parseMembers : Nat → List Char → Option (List (String × JSValue) × List Char)
  | 0, _ => none
  | Nat.succ fuel, cs =>
    match skipWs cs with
    | '\"' :: rest =>
      match parseStrLit rest [] with
      | none => none
      | some (key, afterKey) =>
        match skipWs afterKey with
        | ':' :: afterColon =>
          match parseValue fuel afterColon with
          | none => none
          | some (v, afterVal) =>
            match skipWs afterVal with
            | ',' :: afterComma =>
              (parseMembers fuel afterComma).map (fun p => ((key, v) :: p.1, p.2))
            | '\x7d' :: afterBrace => some ([(key, v)], afterBrace)
            | _ => none
        | _ => none
    | _ => none

/-- Elements of a JSON array, after the opening bracket, at least one. -/
def parseElems : Nat → List Char → Option (List JSValue × List Char)
  | 0, _ => none
  | Nat.succ fuel, cs =>
    match parseValue fuel cs with
    | none => none
    | some (v, afterVal) =>
      match skipWs afterVal with
      | ',' :: afterComma => (parseElems fuel afterComma).map (fun p => (v :: p.1, p.2))
      | ']' :: afterBracket => some ([v], afterBracket)
      | _ => none
end

/-- JSON.parse restricted to integer numbers: one complete value with
nothing but whitespace after it. -/
def jsonParse (s : String) : Option JSValue :=
  match parseValue (2 * s.length + 8) s.data with
  | some (v, rest) => if (skipWs rest).isEmpty then some v else none
  | none => none

/-- Index of the last closing brace of the text, if any. -/
def lastCloseIdx (cs : List Char) : Option Nat :=
  match cs.reverse.findIdx? (fun c => c == '\x7d') with
  | some k => some (cs.length - 1 - k)
  | none => none

/-- The match of the greedy regex for a brace-delimited block, as both
normalizers compute it: from the first opening brace that has a closing
brace after it, to the last closing brace of the whole text. -/
def extractJson (s : String) : Option String :=
  let cs := s.data
  match lastCloseIdx cs with
  | none => none
  | some j =>
    match (cs.take j).findIdx? (fun c => c == '\x7b') with
    | none => none
    | some i => some (String.mk ((cs.take (j + 1)).drop i))

/-! Key names of the analysis schema, named so they can be passed around. -/

def kOverallSentiment : String := "overallSentiment"

def kSentimentScore : String := "sentimentScore"

def kBrandAlignment : String := "brandAlignment"

def kTopKeywords : String := "topKeywords"

def kAiQuote : String := "aiQuote"

def kContentAnalysis : String := "contentAnalysis"

def kRecommendations : String := "recommendations"

def kRiskFactors : String := "riskFactors"

def kOpportunities : String := "opportunities"

def kEngagementInsights : String := "engagementInsights"

def kPostIndex : String := "postIndex"

def kSentiment : String := "sentiment"

def kAiComment : String := "aiComment"

def kBrandMention : String := "brandMention"

/-! The utils/aiService.js normalizer. -/

/-- One normalized contentAnalysis entry of utils/aiService.js. The
postIndex field keeps the JavaScript value: the source writes
item.postIndex || 1, which passes any truthy value through unvalidated. -/
structure ContentItem where
  postIndex : JSValue
  sentiment : String
  aiComment : String
  brandMention : Bool

/-- The object shape returned by the utils/aiService.js normalizer and
fallback. Fields that its validators coerce are given their coerced types. -/
structure Analysis where
  overallSentiment : String
  sentimentScore : Int
  brandAlignment : String
  topKeywords : List String
  aiQuote : String
  contentAnalysis : List ContentItem
  recommendations : List String
  riskFactors : List String
  opportunities : List String
  engagementInsights : String

def validSentiments : List String := ["Positive", "Neutral", "Negative"]

def validAlignments : List String :=
  ["Highly Aligned", "Aligned", "Partially Aligned", "Not Aligned"]

/-- validateSentiment of utils/aiService.js. -/
def validateSentiment (v : JSValue) : String :=
  match v with
  | .str s => if validSentiments.contains s then s else "Neutral"
  | _ => "Neutral"

/-- validateScore of utils/aiService.js: parseInt, 50 on NaN, clamped. -/
def validateScore (v : JSValue) : Int :=
  match jsParseIntVal v with
  | none => 50
  | some n => max 0 (min 100 n)

/-- validateAlignment of utils/aiService.js. -/
def validateAlignment (v : JSValue) : String :=
  match v with
  | .str s => if validAlignments.contains s then s else "Partially Aligned"
  | _ => "Partially Aligned"

/-- The filter body shared by the array validators: keep only non-empty
strings, as strings. -/
def keepNonemptyStr : JSValue → Option String
  | .str s => if s.isEmpty then none else some s
  | _ => none

/-- validateKeywords of utils/aiService.js: non-array replaced by a fixed
list, otherwise slice(0, 5) then filter to non-empty strings. -/
def validateKeywords (v : JSValue) : List String :=
  match v with
  | .arr xs => (xs.take 5).filterMap keepNonemptyStr
  | _ => ["engagement", "content", "brand"]

/-- The templated default quote of utils/aiService.js. -/
def defaultQuote (influencer brand : String) : String :=
  influencer ++ " shows moderate engagement with " ++ brand ++ " content."

/-- Leading substring of length n, substring(0, n) on a string that long. -/
def strTake (s : String) (n : Nat) : String :=
  String.mk (s.data.take n)

/-- validateQuote of utils/aiService.js. -/
def validateQuote (v : JSValue) (influencer brand : String) : String :=
  match v with
  | .str s =>
    if s.isEmpty then defaultQuote influencer brand
    else if 150 < s.length then strTake s 147 ++ "..." else s
  | _ => defaultQuote influencer brand

/-- One step of validateContentAnalysis: the per-item object literal.
JavaScript throws a TypeError (caught by parseAIResponse) when the item is
null or undefined, property access on any other primitive yields undefined. -/
def itemToContent : JSValue → Option ContentItem
  | JSValue.null => none
  | JSValue.undefined => none
  | v =>
    some { postIndex := jsOr (v.get kPostIndex) (JSValue.num 1)
           sentiment := validateSentiment (v.get kSentiment)
           aiComment :=
             match v.get kAiComment with
             | JSValue.str s => s
             | _ => "Standard engagement post"
           brandMention := (v.get kBrandMention).truthy }

/-- The map of validateContentAnalysis over the array's items; none records
the TypeError that a null or undefined item raises. -/
def validateItems : List JSValue → Option (List ContentItem)
  | [] => some []
  | x :: xs =>
    match itemToContent x, validateItems xs with
    | some c, some cs => some (c :: cs)
    | _, _ => none

/-- validateContentAnalysis of utils/aiService.js: non-array becomes the
empty list, an array is defaulted item by item. -/
def validateContentAnalysis (v : JSValue) : Option (List ContentItem) :=
  match v with
  | .arr xs => validateItems xs
  | _ => some []

/-- validateRecommendations of utils/aiService.js. -/
def validateRecommendations (v : JSValue) : List String :=
  match v with
  | .arr xs => (xs.take 5).filterMap keepNonemptyStr
  | _ => ["Monitor engagement trends"]

/-- validateRiskFactors of utils/aiService.js. -/
def validateRiskFactors (v : JSValue) : List String :=
  match v with
  | .arr xs => (xs.take 3).filterMap keepNonemptyStr
  | _ => []

/-- validateOpportunities of utils/aiService.js. -/
def validateOpportunities (v : JSValue) : List String :=
  match v with
  | .arr xs => (xs.take 3).filterMap keepNonemptyStr
  | _ => ["Explore collaboration opportunities"]

def defaultInsights : String :=
  "Engagement patterns show standard influencer activity with moderate audience interaction."

/-- validateEngagementInsights of utils/aiService.js. -/
def validateEngagementInsights (v : JSValue) : String :=
  match v with
  | .str s => if s.isEmpty then defaultInsights else s
  | _ => defaultInsights

/-- The object literal parseAIResponse assembles from the parsed response;
ca is the already-validated contentAnalysis. -/
def buildAnalysis (o : JSValue) (ca : List ContentItem) (brand influencer : String) :
    Analysis :=
  { overallSentiment := validateSentiment (o.get kOverallSentiment)
    sentimentScore := validateScore (o.get kSentimentScore)
    brandAlignment := validateAlignment (o.get kBrandAlignment)
    topKeywords := validateKeywords (o.get kTopKeywords)
    aiQuote := validateQuote (o.get kAiQuote) influencer brand
    contentAnalysis := ca
    recommendations := validateRecommendations (o.get kRecommendations)
    riskFactors := validateRiskFactors (o.get kRiskFactors)
    opportunities := validateOpportunities (o.get kOpportunities)
    engagementInsights := validateEngagementInsights (o.get kEngagementInsights) }

def errInvalid : String := "Invalid AI response format"

/-- parseAIResponse of utils/aiService.js. Every failure inside the try
block (no brace-delimited substring, JSON.parse rejecting the extracted
substring, or the TypeError from a null/undefined contentAnalysis item) is
caught and rethrown as the single message errInvalid. The extracted
substring starts with an opening brace, so a successful JSON.parse always
yields an object and the top-level property accesses cannot throw. -/
def parseAIResponse (aiResponse brand influencer : String) : Except String Analysis :=
  match extractJson aiResponse with
  | none => Except.error errInvalid
  | some j =>
    match jsonParse j with
    | none => Except.error errInvalid
    | some parsed =>
      match validateContentAnalysis (parsed.get kContentAnalysis) with
      | none => Except.error errInvalid
      | some ca => Except.ok (buildAnalysis parsed ca brand influencer)

/-! Posts, as the controllers and fallbacks consume them. The passthrough
metadata fields (imageURL, platform, publishedAt, hashtags, mentions) are
copied verbatim by the code under study and play no part in any claimed
computation, so they are not carried here. -/

/-- Engagement counts of one post; shares is optional and defaulted to 0
where the source writes post.engagement.shares || 0. -/
structure Engagement where
  likes : Nat
  comments : Nat
  shares : Option Nat
deriving DecidableEq

/-- One post as the aggregation and fallback code reads it. -/
structure Post where
  id : Nat
  caption : String
  engagement : Engagement
deriving DecidableEq

def defaultPost : Post := { id := 0, caption := "", engagement := ⟨0, 0, none⟩ }

/-- generateMockResponse of utils/aiService.js. The three Math.random draws
are passed in: sentIdx and alignIdx pick from the option lists and jitter
is Math.floor(Math.random() * 20), so the score offset is jitter - 10. -/
def generateMockResponse (sentIdx alignIdx jitter : Nat)
    (brand influencer : String) (posts : List Post) : Analysis :=
  let sentiments := validSentiments
  let randomSentiment := sentiments.getD (sentIdx % 3) "Neutral"
  let randomAlignment := validAlignments.getD (alignIdx % 4) "Aligned"
  let baseScore : Int :=
    if randomSentiment == "Positive" then 75
    else if randomSentiment == "Negative" then 35 else 55
  let score := max 0 (min 100 (baseScore + (jitter % 20 : Nat) - 10))
  let brandMentions :=
    (posts.filter (fun p => lowerIncludes p.caption brand)).length
  { overallSentiment := randomSentiment
    sentimentScore := score
    brandAlignment := randomAlignment
    topKeywords := ["engagement", "authentic", "lifestyle", "community", "trending"]
    aiQuote := influencer ++ " demonstrates " ++ lowerStr randomSentiment ++
      " engagement with " ++ brand ++ ", showing authentic connection with their audience."
    contentAnalysis :=
      (List.range posts.length).map (fun (index : Nat) =>
        { postIndex := JSValue.num ((index : Int) + 1)
          sentiment := randomSentiment
          aiComment := randomSentiment ++ " sentiment with good engagement metrics"
          brandMention := lowerIncludes (posts.getD index defaultPost).caption brand })
    recommendations :=
      ["Continue authentic content collaboration",
       "Monitor engagement trends closely",
       "Consider long-term partnership opportunities"]
    riskFactors :=
      if randomSentiment == "Negative" then
        ["Potential brand misalignment", "Low engagement rates"]
      else []
    opportunities :=
      ["Increase collaboration frequency",
       "Explore new content formats",
       "Leverage audience demographics"]
    engagementInsights := "Engagement patterns indicate " ++ lowerStr randomSentiment ++
      " audience connection with " ++ toString brandMentions ++
      " brand mentions across " ++ toString posts.length ++ " posts." }

/-! The config/ai.js normalizer. Its parseAIResponse applies no enum
validation and no integer parsing: fields built with || keep whatever
truthy value the model returned, so they stay JSValue-typed here. -/

/-- The object shape returned by the config/ai.js parseAIResponse.
sentimentScore is Option Int because Math.max(0, Math.min(100, x)) is NaN
(none) when x coerces to NaN. -/
structure Analysis3 where
  overallSentiment : JSValue
  sentimentScore : Option Int
  topKeywords : List JSValue
  brandAlignment : JSValue
  aiQuote : JSValue
  contentAnalysis : List JSValue
  recommendations : List JSValue
  riskFactors : List JSValue
  engagementInsights : JSValue

/-- The field-by-field object literal of config/ai.js parseAIResponse,
applied to an already-parsed value that is not null. -/
def normalize3 (o : JSValue) (brand influencer : String) : Analysis3 :=
  { overallSentiment := jsOr (o.get kOverallSentiment) (JSValue.str "Neutral")
    sentimentScore :=
      (jsToNumber (jsOr (o.get kSentimentScore) (JSValue.num 50))).map
        (fun n => max 0 (min 100 n))
    topKeywords :=
      match o.get kTopKeywords with
      | .arr xs => xs.take 5
      | _ => [JSValue.str "engagement", JSValue.str "content", JSValue.str "brand"]
    brandAlignment := jsOr (o.get kBrandAlignment) (JSValue.str "Partially Aligned")
    aiQuote := jsOr (o.get kAiQuote) (JSValue.str (defaultQuote influencer brand))
    contentAnalysis :=
      match o.get kContentAnalysis with
      | .arr xs => xs
      | _ => []
    recommendations :=
      match o.get kRecommendations with
      | .arr xs => xs
      | _ => []
    riskFactors :=
      match o.get kRiskFactors with
      | .arr xs => xs
      | _ => []
    engagementInsights :=
      jsOr (o.get kEngagementInsights)
        (JSValue.str "Engagement patterns show standard influencer activity.") }

/-- parseAIResponse of config/ai.js: the extracted brace block when one
exists, otherwise the whole response, is fed to JSON.parse. none records
the catch branch, where the source returns getMockAIResponse(brand,
influencer) instead of raising; JSON text whose value is null also lands
there, through the TypeError its property access raises. -/
def parseAIResponse3 (aiResponse brand influencer : String) : Option Analysis3 :=
  let jsonString := (extractJson aiResponse).getD aiResponse
  match jsonParse jsonString with
  | some JSValue.null => none
  | some o => some (normalize3 o brand influencer)
  | none => none

/-- getMockAIResponse of config/ai.js. It receives no posts: its
contentAnalysis is a single hard-coded entry with brandMention true. The
two Math.random draws are passed in as sentIdx and jitter. -/
def getMockAIResponse (sentIdx jitter : Nat) (brand influencer : String) : Analysis3 :=
  let randomSentiment := validSentiments.getD (sentIdx % 3) "Neutral"
  let baseScore : Int :=
    if randomSentiment == "Positive" then 75
    else if randomSentiment == "Negative" then 35 else 55
  let score := baseScore + (jitter % 20 : Nat) - 10
  { overallSentiment := JSValue.str randomSentiment
    sentimentScore := some (max 0 (min 100 score))
    topKeywords :=
      [JSValue.str "engagement", JSValue.str "authentic", JSValue.str "lifestyle",
       JSValue.str "trending", JSValue.str "community"]
    brandAlignment :=
      JSValue.str (if randomSentiment == "Positive" then "Aligned" else "Partially Aligned")
    aiQuote := JSValue.str (influencer ++ " demonstrates " ++ lowerStr randomSentiment ++
      " engagement with " ++ brand ++ ", showing authentic connection with their audience.")
    contentAnalysis :=
      [JSValue.obj
        [(kPostIndex, JSValue.num 1),
         (kSentiment, JSValue.str randomSentiment),
         (kAiComment, JSValue.str ("Strong " ++ lowerStr randomSentiment ++
           " sentiment with good engagement metrics.")),
         (kBrandMention, JSValue.bool true)]]
    recommendations :=
      [JSValue.str "Continue authentic content collaboration",
       JSValue.str "Monitor engagement trends closely",
       JSValue.str "Consider long-term partnership opportunities"]
    riskFactors :=
      if randomSentiment == "Negative" then
        [JSValue.str "Potential brand misalignment", JSValue.str "Low engagement rates"]
      else []
    engagementInsights :=
      JSValue.str "Engagement patterns indicate strong audience connection and authentic influence." }

/-! The LLM gateway retry loop of utils/aiService.js makeOpenAIRequest.
The axios call is abstracted as a function from the attempt number to its
outcome, and the backoff sleeps are recorded as data (milliseconds). -/

/-- The error a failed HTTP attempt raises; status is error.response?.status. -/
structure HttpError where
  status : Option Nat
  message : String
deriving DecidableEq

/-- The terminal behaviour of makeOpenAIRequest. failureUndefined records
the throw lastError path when the loop never ran (maxRetries = 0), where
lastError is still undefined. -/
inductive GatewayOutcome where
  | success (body : String)
  | failure (e : HttpError)
  | failureUndefined
deriving DecidableEq

/-- What one run of makeOpenAIRequest did: its terminal outcome, how many
HTTP calls it made, and the backoff waits it slept, in order. -/
structure GatewayRun where
  outcome : GatewayOutcome
  attemptsMade : Nat
  delays : List Nat
deriving DecidableEq

/-- The non-retryable statuses: error.response?.status === 401 || 403. -/
def isAuthStatus (e : HttpError) : Bool :=
  e.status == some 401 || e.status == some 403

/-- The body of the for loop of makeOpenAIRequest: remaining is how many
iterations the loop condition still admits, attempt the current attempt
number, lastErr the lastError variable. When remaining hits 0 the loop
exits and throws lastError. A retryable failure sleeps
Math.pow(2, attempt) * 1000 ms, but only when attempt < maxRetries. -/
def attemptLoop (req : Nat → Except HttpError String) (maxRetries : Nat) :
    Nat → Nat → Option HttpError → GatewayRun
  | 0, _, lastErr =>
    { outcome :=
        match lastErr with
        | some e => GatewayOutcome.failure e
        | none => GatewayOutcome.failureUndefined
      attemptsMade := 0
      delays := [] }
  | Nat.succ remaining, attempt, _ =>
    match req attempt with
    | Except.ok body => { outcome := GatewayOutcome.success body, attemptsMade := 1, delays := [] }
    | Except.error e =>
      if isAuthStatus e then
        { outcome := GatewayOutcome.failure e, attemptsMade := 1, delays := [] }
      else if attempt < maxRetries then
        let rest := attemptLoop req maxRetries remaining (attempt + 1) (some e)
        { outcome := rest.outcome
          attemptsMade := rest.attemptsMade + 1
          delays := 2 ^ attempt * 1000 :: rest.delays }
      else
        let rest := attemptLoop req maxRetries remaining (attempt + 1) (some e)
        { outcome := rest.outcome
          attemptsMade := rest.attemptsMade + 1
          delays := rest.delays }

/-- makeOpenAIRequest of utils/aiService.js:
for (attempt = 1; attempt <= maxRetries; attempt++). -/
def makeOpenAIRequest (req : Nat → Except HttpError String) (maxRetries : Nat) :
    GatewayRun :=
  attemptLoop req maxRetries maxRetries 1 none

/-! The controller aggregation. calculateSentimentDistribution is
character-for-character identical in controllers/analyzeController.js and
controllers/influencerController.js; it is embedded once. -/

/-- A sentiment distribution of percentages. -/
structure Dist where
  positive : Nat
  neutral : Nat
  negative : Nat
deriving DecidableEq

/-- calculateSentimentDistribution of both controllers: a fixed default on
an empty list, otherwise each percentage is Math.round of its share, with
the neutral count defined as total - positive - negative. -/
def calculateSentimentDistribution (contentAnalysis : List ContentItem) : Dist :=
  if contentAnalysis.length = 0 then { positive := 50, neutral := 30, negative := 20 }
  else
    let total := contentAnalysis.length
    let positive := (contentAnalysis.filter (fun item => item.sentiment == "Positive")).length
    let negative := (contentAnalysis.filter (fun item => item.sentiment == "Negative")).length
    let neutral := total - positive - negative
    { positive := jsRoundDiv (positive * 100) total
      neutral := jsRoundDiv (neutral * 100) total
      negative := jsRoundDiv (negative * 100) total }

/-- totalEngagement of analyzeController.formatAnalysisResponse:
posts.reduce((sum, post) => sum + likes + comments + (shares || 0), 0). -/
def totalEngagement (posts : List Post) : Nat :=
  posts.foldl
    (fun sum post =>
      sum + post.engagement.likes + post.engagement.comments + post.engagement.shares.getD 0)
    0

/-- averageEngagement of analyzeController: Math.round(totalEngagement /
posts.length). The division is exact-rational rounding; an empty corpus
(NaN in JavaScript) is outside every claim, which assumes posts nonempty. -/
def averageEngagement (posts : List Post) : Nat :=
  jsRoundDiv (totalEngagement posts) posts.length

/-- totalEngagement of influencerController.analyzeInfluencer:
posts.reduce((sum, post) => sum + likes + comments, 0) - no shares term. -/
def totalEngagement2 (posts : List Post) : Nat :=
  posts.foldl (fun sum post => sum + post.engagement.likes + post.engagement.comments) 0

/-- averageEngagement of influencerController:
Math.round(posts.reduce((sum, post) => sum + likes, 0) / posts.length). -/
def averageEngagement2 (posts : List Post) : Nat :=
  jsRoundDiv (posts.foldl (fun sum post => sum + post.engagement.likes) 0) posts.length

/-- One entry of the response contentAnalysis that
analyzeController.formatAnalysisResponse assembles per post. -/
structure CAOut where
  id : Nat
  caption : String
  aiComment : String
  sentiment : String
  brandMention : Bool
deriving DecidableEq

/-- The per-post object literal: aiAnalysis.contentAnalysis[index] when it
exists, with || applied to its aiComment and sentiment (so the defaults
also replace an empty string), and brandMention recomputed from the
caption. -/
def mkCAOut (brand : String) (post : Post) (item : Option ContentItem) : CAOut :=
  { id := post.id
    caption := post.caption
    aiComment :=
      match item with
      | some it => if it.aiComment.isEmpty then "Standard engagement post" else it.aiComment
      | none => "Standard engagement post"
    sentiment :=
      match item with
      | some it => if it.sentiment.isEmpty then "Neutral" else it.sentiment
      | none => "Neutral"
    brandMention := lowerIncludes post.caption brand }

/-- posts.map((post, index) => ...) of formatAnalysisResponse, indexing
aiAnalysis.contentAnalysis defensively with [index]?. -/
def buildContentAnalysis (posts : List Post) (aiCA : List ContentItem) (brand : String) :
    List CAOut :=
  (List.range posts.length).map
    (fun (index : Nat) => mkCAOut brand (posts.getD index defaultPost) aiCA[index]?)

/-! Helper lemmas shared by several claims. -/

/-- Summing two disjoint filters never exceeds the length of the list. -/
theorem length_filter_add_filter_le {α : Type} (f g : α → Bool) (l : List α)
    (hfg : ∀ x, f x = true → g x = false) :
    (l.filter f).length + (l.filter g).length ≤ l.length := by
  induction l with
  | nil => simp
  | cons x xs ih =>
    rcases hf : f x with _ | _
    · rcases hg : g x with _ | _
      · simp [List.filter_cons, hf, hg]
        omega
      · simp [List.filter_cons, hf, hg]
        omega
    · have hg := hfg x hf
      simp [List.filter_cons, hf, hg]
      omega

/-- The three rounded shares of a partition of t sum to within one of 100. -/
theorem jsRound_three_sum (p n t : Nat) (ht : 0 < t) (hpn : p + n ≤ t) :
    99 ≤ jsRoundDiv (p * 100) t + jsRoundDiv ((t - p - n) * 100) t + jsRoundDiv (n * 100) t ∧
      jsRoundDiv (p * 100) t + jsRoundDiv ((t - p - n) * 100) t + jsRoundDiv (n * 100) t ≤ 101 := by
  have h1 := Nat.div_add_mod (2 * (p * 100) + t) (2 * t)
  have h2 := Nat.div_add_mod (2 * ((t - p - n) * 100) + t) (2 * t)
  have h3 := Nat.div_add_mod (2 * (n * 100) + t) (2 * t)
  have m1 : (2 * (p * 100) + t) % (2 * t) < 2 * t := Nat.mod_lt _ (by omega)
  have m2 : (2 * ((t - p - n) * 100) + t) % (2 * t) < 2 * t := Nat.mod_lt _ (by omega)
  have m3 : (2 * (n * 100) + t) % (2 * t) < 2 * t := Nat.mod_lt _ (by omega)
  have hq1 : jsRoundDiv (p * 100) t = (2 * (p * 100) + t) / (2 * t) := rfl
  have hq2 : jsRoundDiv ((t - p - n) * 100) t = (2 * ((t - p - n) * 100) + t) / (2 * t) := rfl
  have hq3 : jsRoundDiv (n * 100) t = (2 * (n * 100) + t) / (2 * t) := rfl
  rw [hq1, hq2, hq3]
  set q1 := (2 * (p * 100) + t) / (2 * t) with hq1d
  set q2 := (2 * ((t - p - n) * 100) + t) / (2 * t) with hq2d
  set q3 := (2 * (n * 100) + t) / (2 * t) with hq3d
  set r1 := (2 * (p * 100) + t) % (2 * t) with hr1d
  set r2 := (2 * ((t - p - n) * 100) + t) % (2 * t) with hr2d
  set r3 := (2 * (n * 100) + t) % (2 * t) with hr3d
  have key : 2 * t * (q1 + q2 + q3) + (r1 + r2 + r3) = 203 * t := by
    have expand : 2 * t * (q1 + q2 + q3) + (r1 + r2 + r3)
        = (2 * t * q1 + r1) + (2 * t * q2 + r2) + (2 * t * q3 + r3) := by ring
    rw [expand, h1, h2, h3]
    have hu : p + n + (t - p - n) = t := by omega
    omega
  obtain ⟨X, hX⟩ : ∃ X, X = 2 * t * (q1 + q2 + q3) := ⟨_, rfl⟩
  rw [← hX] at key
  constructor
  · by_contra hc
    push_neg at hc
    have h2S : 2 * (q1 + q2 + q3) ≤ 196 := by omega
    have hmul : t * (2 * (q1 + q2 + q3)) ≤ t * 196 := Nat.mul_le_mul_left t h2S
    have hX2 : X = t * (2 * (q1 + q2 + q3)) := by rw [hX]; ring
    have hXle : X ≤ 196 * t := by
      rw [hX2, Nat.mul_comm 196 t]
      exact hmul
    omega
  · by_contra hc
    push_neg at hc
    have h2S : 204 ≤ 2 * (q1 + q2 + q3) := by omega
    have hmul : t * 204 ≤ t * (2 * (q1 + q2 + q3)) := Nat.mul_le_mul_left t h2S
    have hX2 : X = t * (2 * (q1 + q2 + q3)) := by rw [hX]; ring
    have hXge : 204 * t ≤ X := by
      rw [hX2, ← Nat.mul_comm t 204]
      exact hmul
    omega

/-- C3 counterexample: with one Positive, one Negative and one Neutral
entry, each share rounds to 33 and the three percentages sum to 99, not
100 - independent rounding does not make neutral absorb the error. -/
theorem claim_C3_cex :
    calculateSentimentDistribution
        [{ postIndex := JSValue.num 1, sentiment := "Positive", aiComment := "a", brandMention := true },
         { postIndex := JSValue.num 2, sentiment := "Negative", aiComment := "b", brandMention := false },
         { postIndex := JSValue.num 3, sentiment := "Neutral", aiComment := "c", brandMention := false }]
      = { positive := 33, neutral := 33, negative := 33 } ∧ 33 + 33 + 33 ≠ 100 := by
  constructor
  · rfl
  · decide

/-- C3 (amended): for every non-empty contentAnalysis list the neutral
count is total - positive - negative, each percentage is rounded
independently, and their sum lies within one of 100 (it can be 99, 100 or
101), rather than being exactly 100. -/
theorem claim_C3 (ca : List ContentItem) (h : ca ≠ []) :
    99 ≤ (calculateSentimentDistribution ca).positive + (calculateSentimentDistribution ca).neutral
          + (calculateSentimentDistribution ca).negative ∧
      (calculateSentimentDistribution ca).positive + (calculateSentimentDistribution ca).neutral
          + (calculateSentimentDistribution ca).negative ≤ 101 := by
  have hlen : ca.length ≠ 0 := by
    intro h0
    exact h (List.length_eq_zero.mp h0)
  have hd : calculateSentimentDistribution ca =
      { positive := jsRoundDiv ((ca.filter (fun item => item.sentiment == "Positive")).length * 100) ca.length
        neutral := jsRoundDiv ((ca.length - (ca.filter (fun item => item.sentiment == "Positive")).length
            - (ca.filter (fun item => item.sentiment == "Negative")).length) * 100) ca.length
        negative := jsRoundDiv ((ca.filter (fun item => item.sentiment == "Negative")).length * 100) ca.length } := by
    simp only [calculateSentimentDistribution, if_neg hlen]
  rw [hd]
  have hpn : (ca.filter (fun item => item.sentiment == "Positive")).length
      + (ca.filter (fun item => item.sentiment == "Negative")).length ≤ ca.length := by
    apply length_filter_add_filter_le
    intro x hx
    have hs : x.sentiment = "Positive" := by simpa using hx
    simp [hs]
  exact jsRound_three_sum _ _ _ (by omega) hpn

/-- Witness for C3 at a concrete three-entry list whose sum is exactly 99. -/
theorem claim_C3_witness :
    99 ≤ (calculateSentimentDistribution
            [{ postIndex := JSValue.num 1, sentiment := "Positive", aiComment := "a", brandMention := true },
             { postIndex := JSValue.num 2, sentiment := "Negative", aiComment := "b", brandMention := false },
             { postIndex := JSValue.num 3, sentiment := "Neutral", aiComment := "c", brandMention := false }]).positive
        + (calculateSentimentDistribution
            [{ postIndex := JSValue.num 1, sentiment := "Positive", aiComment := "a", brandMention := true },
             { postIndex := JSValue.num 2, sentiment := "Negative", aiComment := "b", brandMention := false },
             { postIndex := JSValue.num 3, sentiment := "Neutral", aiComment := "c", brandMention := false }]).neutral
        + (calculateSentimentDistribution
            [{ postIndex := JSValue.num 1, sentiment := "Positive", aiComment := "a", brandMention := true },
             { postIndex := JSValue.num 2, sentiment := "Negative", aiComment := "b", brandMention := false },
             { postIndex := JSValue.num 3, sentiment := "Neutral", aiComment := "c", brandMention := false }]).negative :=
  (claim_C3 _ (List.cons_ne_nil _ _)).1

/-- When every remaining attempt fails with a retryable error, the loop
runs them all, sleeps after each attempt before the last, and ends with the
error of the final attempt. -/
theorem attemptLoop_all_fail (req : Nat → Except HttpError String) (maxRetries : Nat)
    (errOf : Nat → HttpError)
    (hfail : ∀ a, 1 ≤ a → a ≤ maxRetries → req a = Except.error (errOf a))
    (hretry : ∀ a, 1 ≤ a → a ≤ maxRetries → isAuthStatus (errOf a) = false) :
    ∀ (k attempt : Nat) (lastErr : Option HttpError), 1 ≤ attempt → attempt + k = maxRetries →
      attemptLoop req maxRetries (k + 1) attempt lastErr =
        { outcome := GatewayOutcome.failure (errOf maxRetries)
          attemptsMade := k + 1
          delays := (List.range' attempt k).map (fun a => 2 ^ a * 1000) } := by
  intro k
  induction k with
  | zero =>
    intro attempt lastErr h1 hsum
    have ha : attempt = maxRetries := by omega
    subst ha
    have hr := hfail attempt h1 (by omega)
    have hna := hretry attempt h1 (by omega)
    simp [attemptLoop, hr, hna]
  | succ k ih =>
    intro attempt lastErr h1 hsum
    have hlt : attempt < maxRetries := by omega
    have hr := hfail attempt h1 (by omega)
    have hna := hretry attempt h1 (by omega)
    have hrest := ih (attempt + 1) (some (errOf attempt)) (by omega) (by omega)
    rw [attemptLoop, hr]
    simp [hna, hlt, hrest, List.range'_succ]

/-- C4: when every attempt fails with a retryable error, makeOpenAIRequest
performs exactly maxRetries HTTP calls, sleeps 2^attempt seconds (in ms)
after each attempt except the last, and ends with the final attempt's
error. -/
theorem claim_C4 (req : Nat → Except HttpError String) (maxRetries : Nat)
    (errOf : Nat → HttpError) (hmr : 1 ≤ maxRetries)
    (hfail : ∀ a, 1 ≤ a → a ≤ maxRetries → req a = Except.error (errOf a))
    (hretry : ∀ a, 1 ≤ a → a ≤ maxRetries → isAuthStatus (errOf a) = false) :
    makeOpenAIRequest req maxRetries =
      { outcome := GatewayOutcome.failure (errOf maxRetries)
        attemptsMade := maxRetries
        delays := (List.range' 1 (maxRetries - 1)).map (fun a => 2 ^ a * 1000) } := by
  obtain ⟨m, rfl⟩ : ∃ m, maxRetries = m + 1 := ⟨maxRetries - 1, by omega⟩
  have h := attemptLoop_all_fail req (m + 1) errOf hfail hretry m 1 none (by omega) (by omega)
  unfold makeOpenAIRequest
  simpa using h

/-- Witness for C4: a persistent mocked 500 with maxRetries = 3 makes
exactly 3 calls with delays of 2000 ms and 4000 ms between them and ends
with that error. -/
theorem claim_C4_witness :
    makeOpenAIRequest (fun _ => Except.error { status := some 500, message := "Internal Server Error" }) 3 =
      { outcome := GatewayOutcome.failure { status := some 500, message := "Internal Server Error" }
        attemptsMade := 3
        delays := [2000, 4000] } := by
  have h := claim_C4 (fun _ => Except.error { status := some 500, message := "Internal Server Error" }) 3
    (fun _ => { status := some 500, message := "Internal Server Error" })
    (by omega) (fun a _ _ => rfl) (fun a _ _ => rfl)
  rw [h]
  rfl

/-- C5: an attempt that fails with HTTP 401 or 403 is raised at once: one
call, no backoff sleep, no retry, whatever maxRetries is. -/
theorem claim_C5 (req : Nat → Except HttpError String) (maxRetries : Nat) (e : HttpError)
    (hmr : 1 ≤ maxRetries) (hreq : req 1 = Except.error e)
    (hauth : e.status = some 401 ∨ e.status = some 403) :
    makeOpenAIRequest req maxRetries =
      { outcome := GatewayOutcome.failure e, attemptsMade := 1, delays := [] } := by
  obtain ⟨m, rfl⟩ : ∃ m, maxRetries = m + 1 := ⟨maxRetries - 1, by omega⟩
  have hb : isAuthStatus e = true := by
    rcases hauth with h4 | h4 <;> simp [isAuthStatus, h4]
  simp [makeOpenAIRequest, attemptLoop, hreq, hb]

/-- Witness for C5: a mocked 401 with maxRetries = 3 makes exactly one
call. -/
theorem claim_C5_witness :
    makeOpenAIRequest (fun _ => Except.error { status := some 401, message := "Unauthorized" }) 3 =
      { outcome := GatewayOutcome.failure { status := some 401, message := "Unauthorized" }
        attemptsMade := 1
        delays := [] } :=
  claim_C5 (fun _ => Except.error { status := some 401, message := "Unauthorized" }) 3
    { status := some 401, message := "Unauthorized" } (by omega) rfl (Or.inl rfl)

/-- The engagement reduce of formatAnalysisResponse, from any running sum. -/
theorem totalEngagement_foldl (posts : List Post) (init : Nat) :
    posts.foldl
        (fun sum post =>
          sum + post.engagement.likes + post.engagement.comments + post.engagement.shares.getD 0)
        init
      = init + (posts.map
          (fun p => p.engagement.likes + p.engagement.comments + p.engagement.shares.getD 0)).sum := by
  induction posts generalizing init with
  | nil => simp
  | cons p ps ih =>
    simp only [List.foldl_cons, List.map_cons, List.sum_cons, ih]
    ring

/-- C9 counterexample: on a single post with 10 likes, 5 comments and 2
shares the influencerController summary reports totalEngagement 15 (it
omits shares) and averageEngagement 10 (it averages likes only), while the
claimed formulas give 17 and 17 - as analyzeController computes them. -/
theorem claim_C9_cex :
    totalEngagement2 [{ id := 1, caption := "post", engagement := ⟨10, 5, some 2⟩ }] = 15 ∧
    averageEngagement2 [{ id := 1, caption := "post", engagement := ⟨10, 5, some 2⟩ }] = 10 ∧
    totalEngagement [{ id := 1, caption := "post", engagement := ⟨10, 5, some 2⟩ }] = 17 ∧
    averageEngagement [{ id := 1, caption := "post", engagement := ⟨10, 5, some 2⟩ }] = 17 ∧
    (15 : Nat) ≠ 17 ∧ (10 : Nat) ≠ 17 := by
  decide

/-- C9 (amended): for every non-empty post list, the analyzeController
summary's totalEngagement is the sum over posts of likes + comments +
shares (shares counted as 0 when absent) and its averageEngagement is the
rounded quotient of that total by the post count; the influencerController
summary instead omits shares from the total and averages likes only. -/
theorem claim_C9 (posts : List Post) (_h : posts ≠ []) :
    totalEngagement posts
        = (posts.map
            (fun p => p.engagement.likes + p.engagement.comments + p.engagement.shares.getD 0)).sum ∧
      averageEngagement posts
        = jsRoundDiv
            ((posts.map
              (fun p => p.engagement.likes + p.engagement.comments + p.engagement.shares.getD 0)).sum)
            posts.length := by
  have ht : totalEngagement posts
      = (posts.map
          (fun p => p.engagement.likes + p.engagement.comments + p.engagement.shares.getD 0)).sum := by
    have := totalEngagement_foldl posts 0
    simpa [totalEngagement] using this
  exact ⟨ht, by rw [averageEngagement, ht]⟩

/-- Witness for C9 at a concrete two-post list. -/
theorem claim_C9_witness :
    totalEngagement
        [{ id := 1, caption := "a", engagement := ⟨10, 5, some 2⟩ },
         { id := 2, caption := "b", engagement := ⟨3, 1, none⟩ }]
      = ([17, 4] : List Nat).sum := by
  have h := claim_C9
    [{ id := 1, caption := "a", engagement := ⟨10, 5, some 2⟩ },
     { id := 2, caption := "b", engagement := ⟨3, 1, none⟩ }]
    (List.cons_ne_nil _ _)
  exact h.1

/-- C10: the response contentAnalysis of formatAnalysisResponse has exactly
one entry per post, and every index the AI analysis does not cover is
filled with the default comment and Neutral sentiment. -/
theorem claim_C10 (posts : List Post) (aiCA : List ContentItem) (brand : String) :
    (buildContentAnalysis posts aiCA brand).length = posts.length ∧
      ∀ i, aiCA.length ≤ i → i < posts.length →
        ((buildContentAnalysis posts aiCA brand)[i]?).map (fun e => (e.aiComment, e.sentiment))
          = some ("Standard engagement post", "Neutral") := by
  constructor
  · simp [buildContentAnalysis]
  · intro i h1 h2
    have hnone : aiCA[i]? = none := by
      rw [List.getElem?_eq_none_iff]
      exact h1
    have hr : (List.range posts.length)[i]? = some i := by
      simp [List.getElem?_range, h2]
    simp [buildContentAnalysis, List.getElem?_map, hr, hnone, mkCAOut]

/-- Witness for C10: one post, no AI entries; the single response entry is
the default one. -/
theorem claim_C10_witness :
    (buildContentAnalysis [defaultPost] [] "nike").length = 1 ∧
      ((buildContentAnalysis [defaultPost] [] "nike")[0]?).map (fun e => (e.aiComment, e.sentiment))
        = some ("Standard engagement post", "Neutral") := by
  have h := claim_C10 [defaultPost] [] "nike"
  exact ⟨h.1, h.2 0 (by simp) (by simp)⟩

/-- C8 (amended): for every random draw, brand, influencer and post list,
generateMockResponse of utils/aiService.js emits exactly one
contentAnalysis entry per post, whose brandMention is the case-insensitive
substring test of the brand against that post's caption. -/
theorem claim_C8 (sentIdx alignIdx jitter : Nat) (brand influencer : String)
    (posts : List Post) :
    (generateMockResponse sentIdx alignIdx jitter brand influencer posts).contentAnalysis.length
        = posts.length ∧
      ∀ i, i < posts.length →
        ((generateMockResponse sentIdx alignIdx jitter brand influencer posts).contentAnalysis[i]?).map
            (fun it => it.brandMention)
          = some (lowerIncludes (posts.getD i defaultPost).caption brand) := by
  constructor
  · simp [generateMockResponse]
  · intro i hi
    have hr : (List.range posts.length)[i]? = some i := by
      simp [List.getElem?_range, hi]
    simp [generateMockResponse, List.getElem?_map, hr]

/-- Witness for C8: two posts, only the first mentioning the brand. -/
theorem claim_C8_witness :
    (generateMockResponse 0 1 7 "nike" "techguru"
        [{ id := 1, caption := "Loving my NIKE shoes", engagement := ⟨10, 5, some 2⟩ },
         { id := 2, caption := "adidas all day", engagement := ⟨3, 1, none⟩ }]).contentAnalysis.length
        = 2 ∧
      ((generateMockResponse 0 1 7 "nike" "techguru"
          [{ id := 1, caption := "Loving my NIKE shoes", engagement := ⟨10, 5, some 2⟩ },
           { id := 2, caption := "adidas all day", engagement := ⟨3, 1, none⟩ }]).contentAnalysis[1]?).map
          (fun it => it.brandMention)
        = some false := by
  have h := claim_C8 0 1 7 "nike" "techguru"
    [{ id := 1, caption := "Loving my NIKE shoes", engagement := ⟨10, 5, some 2⟩ },
     { id := 2, caption := "adidas all day", engagement := ⟨3, 1, none⟩ }]
  refine ⟨h.1, ?_⟩
  rw [h.2 1 (by decide)]
  decide

/-- C8 counterexample: getMockAIResponse of config/ai.js receives no posts
at all; its contentAnalysis is a single hard-coded entry whose brandMention
is true, so for a two-post corpus whose captions never mention the brand it
has neither one entry per post nor caption-derived brandMention flags. -/
theorem claim_C8_cex :
    (getMockAIResponse 0 0 "nike" "techguru").contentAnalysis.length = 1 ∧
      ([{ id := 1, caption := "adidas only", engagement := ⟨1, 1, none⟩ },
        { id := 2, caption := "puma only", engagement := ⟨1, 1, none⟩ }] : List Post).length = 2 ∧
      (1 : Nat) ≠ 2 ∧
      ((getMockAIResponse 0 0 "nike" "techguru").contentAnalysis.map
          (fun e => ((e.get kBrandMention).truthy : Bool)))
        = [true] ∧
      lowerIncludes "adidas only" "nike" = false ∧
      lowerIncludes "puma only" "nike" = false := by
  refine ⟨rfl, rfl, by decide, rfl, by decide, by decide⟩

/-! Facts about the utils/aiService.js validators, shared by C1, C6 and
C7. -/

/-- A string whose isEmpty flag is false is not the empty string. -/
theorem ne_empty_of_isEmpty_false {s : String} (h : s.isEmpty = false) : s ≠ "" := by
  intro he
  subst he
  exact absurd h (by decide)

/-- The clamped score is always within bounds. -/
theorem validateScore_bounds (v : JSValue) :
    0 ≤ validateScore v ∧ validateScore v ≤ 100 := by
  unfold validateScore
  cases jsParseIntVal v with
  | none =>
    show (0 : Int) ≤ 50 ∧ (50 : Int) ≤ 100
    omega
  | some n =>
    show 0 ≤ max 0 (min 100 n) ∧ max 0 (min 100 n) ≤ 100
    omega

/-- The validated sentiment is always one of the three allowed values. -/
theorem validateSentiment_mem (v : JSValue) :
    validSentiments.contains (validateSentiment v) = true := by
  have hneu : validSentiments.contains "Neutral" = true := by decide
  cases v with
  | str s =>
    unfold validateSentiment
    show validSentiments.contains
        (if validSentiments.contains s = true then s else "Neutral") = true
    by_cases h : validSentiments.contains s = true
    · rw [if_pos h]
      exact h
    · rw [if_neg h]
      exact hneu
  | null => exact hneu
  | undefined => exact hneu
  | bool b => exact hneu
  | num n => exact hneu
  | arr xs => exact hneu
  | obj fs => exact hneu

/-- The validated alignment is always one of the four allowed values. -/
theorem validateAlignment_mem (v : JSValue) :
    validAlignments.contains (validateAlignment v) = true := by
  have hpa : validAlignments.contains "Partially Aligned" = true := by decide
  cases v with
  | str s =>
    unfold validateAlignment
    show validAlignments.contains
        (if validAlignments.contains s = true then s else "Partially Aligned") = true
    by_cases h : validAlignments.contains s = true
    · rw [if_pos h]
      exact h
    · rw [if_neg h]
      exact hpa
  | null => exact hpa
  | undefined => exact hpa
  | bool b => exact hpa
  | num n => exact hpa
  | arr xs => exact hpa
  | obj fs => exact hpa

/-- Whatever survives the non-empty-string filter is a non-empty string. -/
theorem mem_filterMap_keep {xs : List JSValue} {s : String}
    (h : s ∈ xs.filterMap keepNonemptyStr) : s ≠ "" := by
  rcases List.mem_filterMap.mp h with ⟨x, _, hx⟩
  cases x with
  | str t =>
    unfold keepNonemptyStr at hx
    by_cases he : t.isEmpty = true
    · simp [he] at hx
    · simp only [Bool.not_eq_true] at he
      simp [he] at hx
      subst hx
      exact ne_empty_of_isEmpty_false he
  | null => simp [keepNonemptyStr] at hx
  | undefined => simp [keepNonemptyStr] at hx
  | bool b => simp [keepNonemptyStr] at hx
  | num n => simp [keepNonemptyStr] at hx
  | arr ys => simp [keepNonemptyStr] at hx
  | obj fs => simp [keepNonemptyStr] at hx

/-- The sliced-and-filtered array validators respect their caps. -/
theorem filterMap_take_length_le (xs : List JSValue) (k : Nat) :
    ((xs.take k).filterMap keepNonemptyStr).length ≤ k := by
  calc ((xs.take k).filterMap keepNonemptyStr).length
      ≤ (xs.take k).length := List.length_filterMap_le _ _
    _ ≤ k := by rw [List.length_take]; omega

/-- C6 (amended): the utils/aiService.js validateScore parses its input as
an integer, yields 50 exactly when parsing fails (NaN), clamps negatives to
0 and values above 100 to 100, keeps in-range integers unchanged, and its
output always lies in [0, 100]. The config/ai.js duplicate does none of
this: it replaces any falsy score (including the valid score 0) with 50 and
applies no integer parsing. -/
theorem claim_C6 (v : JSValue) :
    (0 ≤ validateScore v ∧ validateScore v ≤ 100) ∧
      (jsParseIntVal v = none → validateScore v = 50) ∧
      (∀ n : Int, jsParseIntVal v = some n → n < 0 → validateScore v = 0) ∧
      (∀ n : Int, jsParseIntVal v = some n → 100 < n → validateScore v = 100) ∧
      (∀ n : Int, jsParseIntVal v = some n → 0 ≤ n → n ≤ 100 → validateScore v = n) := by
  refine ⟨validateScore_bounds v, ?_, ?_, ?_, ?_⟩ <;> unfold validateScore
  · intro h
    rw [h]
  · intro n hn hneg
    rw [hn]
    show max 0 (min 100 n) = 0
    omega
  · intro n hn hgt
    rw [hn]
    show max 0 (min 100 n) = 100
    omega
  · intro n hn h0 h100
    rw [hn]
    show max 0 (min 100 n) = n
    omega

/-- Witness for C6 at concrete inputs: a negative score clamps to 0, an
overflowing one to 100, and an unparseable one defaults to 50. -/
theorem claim_C6_witness :
    validateScore (JSValue.num (-7)) = 0 ∧
      validateScore (JSValue.num 250) = 100 ∧
      validateScore (JSValue.str "high") = 50 := by
  refine ⟨(claim_C6 (JSValue.num (-7))).2.2.1 (-7) rfl (by omega),
    (claim_C6 (JSValue.num 250)).2.2.2.1 250 rfl (by omega),
    (claim_C6 (JSValue.str "high")).2.1 rfl⟩

/-- C6 counterexample: the config/ai.js normalizer maps the valid score 0
to 50, where the claimed normalization (as utils/aiService.js implements
it) keeps 0. -/
theorem claim_C6_cex :
    validateScore (JSValue.num 0) = 0 ∧
      (parseAIResponse3 "\x7b\"sentimentScore\":0\x7d" "nike" "techguru").map
          (fun a => a.sentimentScore)
        = some (some 50) ∧
      (some (50 : Int) : Option Int) ≠ some 0 := by
  refine ⟨rfl, rfl, by decide⟩

/-- The fixed fallback lists of the array validators satisfy the caps. -/
theorem defaultKeywords_spec :
    ((["engagement", "content", "brand"] : List String).length ≤ 5)
      ∧ ∀ k ∈ (["engagement", "content", "brand"] : List String), k ≠ "" := by
  decide

theorem defaultRecommendations_spec :
    (((["Monitor engagement trends"]) : List String).length ≤ 5)
      ∧ ∀ k ∈ ((["Monitor engagement trends"]) : List String), k ≠ "" := by
  decide

theorem defaultRisks_spec :
    ((([] : List String)).length ≤ 3) ∧ ∀ k ∈ ([] : List String), k ≠ "" := by
  decide

theorem defaultOpportunities_spec :
    (((["Explore collaboration opportunities"]) : List String).length ≤ 3)
      ∧ ∀ k ∈ ((["Explore collaboration opportunities"]) : List String), k ≠ "" := by
  decide

/-- The array validators produce only non-empty strings. -/
theorem validateKeywords_spec (v : JSValue) :
    (validateKeywords v).length ≤ 5 ∧ ∀ k ∈ validateKeywords v, k ≠ "" := by
  cases v with
  | arr xs => exact ⟨filterMap_take_length_le xs 5, fun k hk => mem_filterMap_keep hk⟩
  | null => exact defaultKeywords_spec
  | undefined => exact defaultKeywords_spec
  | bool b => exact defaultKeywords_spec
  | num n => exact defaultKeywords_spec
  | str s => exact defaultKeywords_spec
  | obj fs => exact defaultKeywords_spec

/-- The recommendations validator respects its cap of five. -/
theorem validateRecommendations_spec (v : JSValue) :
    (validateRecommendations v).length ≤ 5 ∧ ∀ r ∈ validateRecommendations v, r ≠ "" := by
  cases v with
  | arr xs => exact ⟨filterMap_take_length_le xs 5, fun r hr => mem_filterMap_keep hr⟩
  | null => exact defaultRecommendations_spec
  | undefined => exact defaultRecommendations_spec
  | bool b => exact defaultRecommendations_spec
  | num n => exact defaultRecommendations_spec
  | str s => exact defaultRecommendations_spec
  | obj fs => exact defaultRecommendations_spec

/-- The riskFactors validator respects its cap of three. -/
theorem validateRiskFactors_spec (v : JSValue) :
    (validateRiskFactors v).length ≤ 3 ∧ ∀ r ∈ validateRiskFactors v, r ≠ "" := by
  cases v with
  | arr xs => exact ⟨filterMap_take_length_le xs 3, fun r hr => mem_filterMap_keep hr⟩
  | null => exact defaultRisks_spec
  | undefined => exact defaultRisks_spec
  | bool b => exact defaultRisks_spec
  | num n => exact defaultRisks_spec
  | str s => exact defaultRisks_spec
  | obj fs => exact defaultRisks_spec

/-- The opportunities validator respects its cap of three. -/
theorem validateOpportunities_spec (v : JSValue) :
    (validateOpportunities v).length ≤ 3 ∧ ∀ r ∈ validateOpportunities v, r ≠ "" := by
  cases v with
  | arr xs => exact ⟨filterMap_take_length_le xs 3, fun r hr => mem_filterMap_keep hr⟩
  | null => exact defaultOpportunities_spec
  | undefined => exact defaultOpportunities_spec
  | bool b => exact defaultOpportunities_spec
  | num n => exact defaultOpportunities_spec
  | str s => exact defaultOpportunities_spec
  | obj fs => exact defaultOpportunities_spec

/-- The validated quote is within 150 characters unless it is the templated
default (whose length depends on the influencer and brand arguments). -/
theorem validateQuote_spec (v : JSValue) (influencer brand : String) :
    (validateQuote v influencer brand).length ≤ 150
      ∨ validateQuote v influencer brand = defaultQuote influencer brand := by
  cases v with
  | str s =>
    unfold validateQuote
    show ((if s.isEmpty = true then defaultQuote influencer brand
        else if 150 < s.length then strTake s 147 ++ "..." else s).length ≤ 150)
      ∨ (if s.isEmpty = true then defaultQuote influencer brand
        else if 150 < s.length then strTake s 147 ++ "..." else s) = defaultQuote influencer brand
    by_cases he : s.isEmpty = true
    · rw [if_pos he]
      exact Or.inr rfl
    · rw [if_neg he]
      by_cases hl : 150 < s.length
      · rw [if_pos hl]
        left
        have h1 : (strTake s 147).length = 147 := by
          have h2 : (strTake s 147).length = (s.data.take 147).length := rfl
          have h3 : s.length = s.data.length := rfl
          rw [h2, List.length_take]
          omega
        have h4 : ("..." : String).length = 3 := by decide
        rw [String.length_append, h1, h4]
      · rw [if_neg hl]
        left
        omega
  | null => exact Or.inr rfl
  | undefined => exact Or.inr rfl
  | bool b => exact Or.inr rfl
  | num n => exact Or.inr rfl
  | arr xs => exact Or.inr rfl
  | obj fs => exact Or.inr rfl

/-- The normalized engagementInsights is never empty. -/
theorem validateEngagementInsights_ne (v : JSValue) : validateEngagementInsights v ≠ "" := by
  have hdef : defaultInsights ≠ "" := by decide
  cases v with
  | str s =>
    unfold validateEngagementInsights
    show (if s.isEmpty = true then defaultInsights else s) ≠ ""
    by_cases he : s.isEmpty = true
    · rw [if_pos he]
      exact hdef
    · rw [if_neg he]
      simp only [Bool.not_eq_true] at he
      exact ne_empty_of_isEmpty_false he
  | null => exact hdef
  | undefined => exact hdef
  | bool b => exact hdef
  | num n => exact hdef
  | arr xs => exact hdef
  | obj fs => exact hdef

/-- The sentiment a normalized item carries is the validated one. -/
theorem itemToContent_sentiment (x : JSValue) (c : ContentItem)
    (h : itemToContent x = some c) : c.sentiment = validateSentiment (x.get kSentiment) := by
  cases x with
  | null => exact Option.noConfusion h
  | undefined => exact Option.noConfusion h
  | bool b =>
    have h2 := Option.some.inj h
    subst h2
    rfl
  | num n =>
    have h2 := Option.some.inj h
    subst h2
    rfl
  | str s =>
    have h2 := Option.some.inj h
    subst h2
    rfl
  | arr xs =>
    have h2 := Option.some.inj h
    subst h2
    rfl
  | obj fs =>
    have h2 := Option.some.inj h
    subst h2
    rfl

/-- Every item that survives validateContentAnalysis carries an allowed
sentiment. -/
theorem validateItems_sentiment : ∀ (xs : List JSValue) (ca : List ContentItem),
    validateItems xs = some ca → ∀ it ∈ ca, validSentiments.contains it.sentiment = true := by
  intro xs
  induction xs with
  | nil =>
    intro ca h it hit
    have h0 := Option.some.inj h
    subst h0
    simp at hit
  | cons x xs ih =>
    intro ca h it hit
    unfold validateItems at h
    cases hx : itemToContent x with
    | none =>
      rw [hx] at h
      exact Option.noConfusion h
    | some c =>
      rw [hx] at h
      cases hr : validateItems xs with
      | none =>
        rw [hr] at h
        exact Option.noConfusion h
      | some cs =>
        rw [hr] at h
        have h0 := Option.some.inj h
        subst h0
        cases List.mem_cons.mp hit with
        | inl heq =>
          subst heq
          rw [itemToContent_sentiment x it hx]
          exact validateSentiment_mem _
        | inr hmem => exact ih cs hr it hmem

/-- Lifting the per-item fact through the non-array default. -/
theorem validateContentAnalysis_sentiment (v : JSValue) (ca : List ContentItem)
    (h : validateContentAnalysis v = some ca) :
    ∀ it ∈ ca, validSentiments.contains it.sentiment = true := by
  cases v with
  | arr xs => exact validateItems_sentiment xs ca h
  | null =>
    have h0 := Option.some.inj h
    subst h0
    intro it hit
    simp at hit
  | undefined =>
    have h0 := Option.some.inj h
    subst h0
    intro it hit
    simp at hit
  | bool b =>
    have h0 := Option.some.inj h
    subst h0
    intro it hit
    simp at hit
  | num n =>
    have h0 := Option.some.inj h
    subst h0
    intro it hit
    simp at hit
  | str s =>
    have h0 := Option.some.inj h
    subst h0
    intro it hit
    simp at hit
  | obj fs =>
    have h0 := Option.some.inj h
    subst h0
    intro it hit
    simp at hit

/-- Tells a JavaScript number apart from every other value. -/
def isNumValue : JSValue → Bool
  | .num _ => true
  | _ => false

/-- C1 (amended): every analysis the utils/aiService.js normalizer accepts
has overallSentiment in {Positive, Neutral, Negative}, its score in
[0, 100], its alignment in the allowed set, its arrays capped (5/5/3/3)
and free of empty strings, its quote within 150 characters unless it is
the templated default, every contentAnalysis sentiment allowed, and a
non-empty engagementInsights - but contentAnalysis[].postIndex is passed
through unvalidated, so it need not be a number, and the config/ai.js
duplicate does not validate overallSentiment at all. -/
theorem claim_C1 (s brand influencer : String) (a : Analysis)
    (h : parseAIResponse s brand influencer = Except.ok a) :
    validSentiments.contains a.overallSentiment = true ∧
      (0 ≤ a.sentimentScore ∧ a.sentimentScore ≤ 100) ∧
      validAlignments.contains a.brandAlignment = true ∧
      (a.topKeywords.length ≤ 5 ∧ ∀ k ∈ a.topKeywords, k ≠ "") ∧
      (a.aiQuote.length ≤ 150 ∨ a.aiQuote = defaultQuote influencer brand) ∧
      (∀ it ∈ a.contentAnalysis, validSentiments.contains it.sentiment = true) ∧
      (a.recommendations.length ≤ 5 ∧ ∀ r ∈ a.recommendations, r ≠ "") ∧
      (a.riskFactors.length ≤ 3 ∧ ∀ r ∈ a.riskFactors, r ≠ "") ∧
      (a.opportunities.length ≤ 3 ∧ ∀ r ∈ a.opportunities, r ≠ "") ∧
      a.engagementInsights ≠ "" := by
  unfold parseAIResponse at h
  split at h
  next => exact Except.noConfusion h
  next j hE =>
    split at h
    next => exact Except.noConfusion h
    next parsed hP =>
      split at h
      next => exact Except.noConfusion h
      next ca hV =>
        have ha := Except.ok.inj h
        subst ha
        exact ⟨validateSentiment_mem _, validateScore_bounds _, validateAlignment_mem _,
          validateKeywords_spec _, validateQuote_spec _ influencer brand,
          validateContentAnalysis_sentiment _ ca hV,
          validateRecommendations_spec _, validateRiskFactors_spec _,
          validateOpportunities_spec _, validateEngagementInsights_ne _⟩

/-- The fully-defaulted analysis the normalizer produces from an empty
JSON object. -/
def analysisEmptyObj : Analysis :=
  { overallSentiment := "Neutral"
    sentimentScore := 50
    brandAlignment := "Partially Aligned"
    topKeywords := ["engagement", "content", "brand"]
    aiQuote := defaultQuote "techguru" "nike"
    contentAnalysis := []
    recommendations := ["Monitor engagement trends"]
    riskFactors := []
    opportunities := ["Explore collaboration opportunities"]
    engagementInsights := defaultInsights }

/-- Witness for C1: the empty JSON object normalizes to the all-defaults
analysis, which the theorem certifies. -/
theorem claim_C1_witness :
    parseAIResponse "\x7b\x7d" "nike" "techguru" = Except.ok analysisEmptyObj ∧
      validSentiments.contains analysisEmptyObj.overallSentiment = true ∧
      (0 ≤ analysisEmptyObj.sentimentScore ∧ analysisEmptyObj.sentimentScore ≤ 100) ∧
      analysisEmptyObj.engagementInsights ≠ "" := by
  have h := claim_C1 "\x7b\x7d" "nike" "techguru" analysisEmptyObj rfl
  exact ⟨rfl, h.1, h.2.1, h.2.2.2.2.2.2.2.2.2⟩

/-- A response whose contentAnalysis item has a string postIndex. -/
def responsePostIndexStr : String :=
  "\x7b\"contentAnalysis\":[\x7b\"postIndex\":\"two\",\"sentiment\":\"Positive\",\"aiComment\":\"ok\",\"brandMention\":true\x7d]\x7d"

/-- A response whose overallSentiment is outside the allowed set. -/
def responseHappy : String := "\x7b\"overallSentiment\":\"Happy\"\x7d"

/-- C1 counterexample: the utils/aiService.js normalizer passes a truthy
string postIndex through, so not every field of the accepted result is
well-typed; and the config/ai.js normalizer returns the out-of-enum
sentiment Happy unchanged. -/
theorem claim_C1_cex :
    (parseAIResponse responsePostIndexStr "nike" "techguru").map
        (fun a => a.contentAnalysis.map (fun it => it.postIndex))
      = Except.ok [JSValue.str "two"] ∧
      isNumValue (JSValue.str "two") = false ∧
      (parseAIResponse3 responseHappy "nike" "techguru").map (fun a => a.overallSentiment)
        = some (JSValue.str "Happy") ∧
      validSentiments.contains "Happy" = false := by
  exact ⟨rfl, by decide, rfl, by decide⟩

/-- C2 (amended): the utils/aiService.js normalizer succeeds exactly when
a brace-delimited block is found, JSON.parse accepts the extracted block,
and the parsed contentAnalysis has no null or undefined item (which would
raise a TypeError during per-item defaulting); an input can therefore hold
a perfectly locatable JSON object yet still be rejected, whenever the
greedy match drags trailing text into the parsed block. The config/ai.js
duplicate never raises at all: it returns the mock response on any parse
failure. -/
theorem claim_C2 (s brand influencer : String) :
    (∃ a, parseAIResponse s brand influencer = Except.ok a) ↔
      ∃ j o, extractJson s = some j ∧ jsonParse j = some o ∧
        validateContentAnalysis (o.get kContentAnalysis) ≠ none := by
  unfold parseAIResponse
  cases hE : extractJson s with
  | none =>
    simp [hE]
  | some j =>
    cases hP : jsonParse j with
    | none =>
      simp [hE, hP]
    | some o =>
      cases hV : validateContentAnalysis (o.get kContentAnalysis) with
      | none =>
        simp [hE, hP, hV]
      | some ca =>
        simp [hE, hP, hV]

/-- A response text holding a complete JSON object plus a stray trailing
closing brace. -/
def responseStrayBrace : String := "\x7b\"a\": 1\x7d x \x7d"

/-- The complete JSON object contained in responseStrayBrace. -/
def locatableJsonSub : String := "\x7b\"a\": 1\x7d"

/-- C2 counterexample: responseStrayBrace contains a locatable, parseable
JSON object, yet the normalizer raises, because the greedy extraction runs
to the last closing brace and JSON.parse rejects the extracted block. -/
theorem claim_C2_cex :
    (extractJson responseStrayBrace).isSome = true ∧
      strIncludes responseStrayBrace locatableJsonSub = true ∧
      (jsonParse locatableJsonSub).isSome = true ∧
      parseAIResponse responseStrayBrace "nike" "techguru" = Except.error errInvalid := by
  exact ⟨rfl, by decide, rfl, rfl⟩

/-! C7: idempotence of the normalizer on schema-valid input. The
schema-validity predicate and the field-for-field reading below follow the
spec's schema wording; they are the comparison side of the refinement. -/

/-- The string carried by a value, for values known to be strings. -/
def asStr : JSValue → String
  | .str s => s
  | _ => ""

/-- The integer carried by a value, for values known to be numbers. -/
def asNum : JSValue → Int
  | .num n => n
  | _ => 0

/-- The boolean carried by a value, for values known to be booleans. -/
def asBool : JSValue → Bool
  | .bool b => b
  | _ => false

/-- The raw fields of one contentAnalysis item, read without correction. -/
def readItem (x : JSValue) : ContentItem :=
  { postIndex := x.get kPostIndex
    sentiment := asStr (x.get kSentiment)
    aiComment := asStr (x.get kAiComment)
    brandMention := asBool (x.get kBrandMention) }

/-- The raw items of a contentAnalysis array. -/
def asItems : JSValue → List ContentItem
  | .arr xs => xs.map readItem
  | _ => []

/-- The raw strings of a string array. -/
def asStrList : JSValue → List String
  | .arr xs => xs.map asStr
  | _ => []

/-- Modelled from the spec: the plain field-for-field reading of an already
schema-valid analysis object - the parse(S) side of the idempotence
property normalize(S) == parse(S). -/
def readAnalysis (o : JSValue) : Analysis :=
  { overallSentiment := asStr (o.get kOverallSentiment)
    sentimentScore := asNum (o.get kSentimentScore)
    brandAlignment := asStr (o.get kBrandAlignment)
    topKeywords := asStrList (o.get kTopKeywords)
    aiQuote := asStr (o.get kAiQuote)
    contentAnalysis := asItems (o.get kContentAnalysis)
    recommendations := asStrList (o.get kRecommendations)
    riskFactors := asStrList (o.get kRiskFactors)
    opportunities := asStrList (o.get kOpportunities)
    engagementInsights := asStr (o.get kEngagementInsights) }

/-- Is the value a sentiment string from the allowed set. -/
def sentValidB (v : JSValue) : Bool :=
  match v with
  | .str s => validSentiments.contains s
  | _ => false

/-- Is the value an alignment string from the allowed set. -/
def alignValidB (v : JSValue) : Bool :=
  match v with
  | .str s => validAlignments.contains s
  | _ => false

/-- Is the value a non-empty string. -/
def nonemptyStrB : JSValue → Bool
  | .str s => !s.isEmpty
  | _ => false

/-- Is the value a string at all. -/
def isStrB : JSValue → Bool
  | .str _ => true
  | _ => false

/-- Is the value an array of at most cap non-empty strings. -/
def strListValidB (v : JSValue) (cap : Nat) : Bool :=
  match v with
  | .arr xs => decide (xs.length ≤ cap) && xs.all nonemptyStrB
  | _ => false

/-- Is the value an integer score within [0, 100]. -/
def scoreValidB (v : JSValue) : Bool :=
  match v with
  | .num n => decide (0 ≤ n) && decide (n ≤ 100)
  | _ => false

/-- Is the value a non-empty string of at most 150 characters. -/
def quoteValidB (v : JSValue) : Bool :=
  match v with
  | .str s => !s.isEmpty && decide (s.length ≤ 150)
  | _ => false

/-- Is the value a schema-valid contentAnalysis item: an object with a
1-based integer postIndex, an allowed sentiment, a string aiComment and a
boolean brandMention. -/
def itemValidB (x : JSValue) : Bool :=
  match x with
  | .obj _ =>
    (match x.get kPostIndex with
     | JSValue.num n => decide (1 ≤ n)
     | _ => false) &&
    sentValidB (x.get kSentiment) &&
    isStrB (x.get kAiComment) &&
    (match x.get kBrandMention with
     | JSValue.bool _ => true
     | _ => false)
  | _ => false

/-- Modelled from the spec: a schema-valid analysis JSON object - every
field present with an allowed value, score in [0, 100], arrays within
their caps, quote non-empty and within 150 characters. -/
def specSchemaValid (o : JSValue) : Bool :=
  match o with
  | .obj _ =>
    sentValidB (o.get kOverallSentiment) &&
    scoreValidB (o.get kSentimentScore) &&
    alignValidB (o.get kBrandAlignment) &&
    strListValidB (o.get kTopKeywords) 5 &&
    quoteValidB (o.get kAiQuote) &&
    (match o.get kContentAnalysis with
     | JSValue.arr xs => xs.all itemValidB
     | _ => false) &&
    strListValidB (o.get kRecommendations) 5 &&
    strListValidB (o.get kRiskFactors) 3 &&
    strListValidB (o.get kOpportunities) 3 &&
    nonemptyStrB (o.get kEngagementInsights)
  | _ => false

/-- On an allowed sentiment string, validateSentiment is the identity. -/
theorem validateSentiment_valid {v : JSValue} (h : sentValidB v = true) :
    validateSentiment v = asStr v := by
  cases v with
  | str s =>
    unfold validateSentiment
    show (if validSentiments.contains s = true then s else "Neutral") = asStr (JSValue.str s)
    have h2 : validSentiments.contains s = true := h
    rw [if_pos h2]
    rfl
  | null => exact Bool.noConfusion h
  | undefined => exact Bool.noConfusion h
  | bool b => exact Bool.noConfusion h
  | num n => exact Bool.noConfusion h
  | arr xs => exact Bool.noConfusion h
  | obj fs => exact Bool.noConfusion h

/-- On an in-range integer score, validateScore is the identity. -/
theorem validateScore_valid {v : JSValue} (h : scoreValidB v = true) :
    validateScore v = asNum v := by
  cases v with
  | num n =>
    have h' : 0 ≤ n ∧ n ≤ 100 := by simpa [scoreValidB] using h
    unfold validateScore
    show max 0 (min 100 n) = asNum (JSValue.num n)
    show max 0 (min 100 n) = n
    omega
  | null => exact Bool.noConfusion h
  | undefined => exact Bool.noConfusion h
  | bool b => exact Bool.noConfusion h
  | str s => exact Bool.noConfusion h
  | arr xs => exact Bool.noConfusion h
  | obj fs => exact Bool.noConfusion h

/-- On an allowed alignment string, validateAlignment is the identity. -/
theorem validateAlignment_valid {v : JSValue} (h : alignValidB v = true) :
    validateAlignment v = asStr v := by
  cases v with
  | str s =>
    unfold validateAlignment
    show (if validAlignments.contains s = true then s else "Partially Aligned")
        = asStr (JSValue.str s)
    have h2 : validAlignments.contains s = true := h
    rw [if_pos h2]
    rfl
  | null => exact Bool.noConfusion h
  | undefined => exact Bool.noConfusion h
  | bool b => exact Bool.noConfusion h
  | num n => exact Bool.noConfusion h
  | arr xs => exact Bool.noConfusion h
  | obj fs => exact Bool.noConfusion h

/-- A non-empty string passes the string filter unchanged. -/
theorem keepNonempty_of_valid {x : JSValue} (h : nonemptyStrB x = true) :
    keepNonemptyStr x = some (asStr x) := by
  cases x with
  | str s =>
    have h' : s.isEmpty = false := by
      cases he : s.isEmpty with
      | false => rfl
      | true =>
        have : (!s.isEmpty) = true := h
        rw [he] at this
        exact Bool.noConfusion this
    unfold keepNonemptyStr
    show (if s.isEmpty = true then none else some s) = some (asStr (JSValue.str s))
    rw [if_neg (by rw [h']; exact Bool.noConfusion)]
    rfl
  | null => exact Bool.noConfusion h
  | undefined => exact Bool.noConfusion h
  | bool b => exact Bool.noConfusion h
  | num n => exact Bool.noConfusion h
  | arr xs => exact Bool.noConfusion h
  | obj fs => exact Bool.noConfusion h

/-- A list of non-empty strings passes the string filter unchanged. -/
theorem filterMap_keep_map {xs : List JSValue} (h : ∀ x ∈ xs, nonemptyStrB x = true) :
    xs.filterMap keepNonemptyStr = xs.map asStr := by
  induction xs with
  | nil => rfl
  | cons x xs ih =>
    rw [List.filterMap_cons, keepNonempty_of_valid (h x (List.mem_cons_self x xs))]
    rw [List.map_cons, ih (fun y hy => h y (List.mem_cons_of_mem x hy))]

/-- A capped list of non-empty strings is returned unchanged by the
slice-and-filter validators. -/
theorem filterMap_take_of_valid {xs : List JSValue} {cap : Nat} (hlen : xs.length ≤ cap)
    (hall : ∀ x ∈ xs, nonemptyStrB x = true) :
    (xs.take cap).filterMap keepNonemptyStr = xs.map asStr := by
  rw [List.take_of_length_le hlen]
  exact filterMap_keep_map hall

/-- On a schema-valid keyword array, validateKeywords is the identity. -/
theorem validateKeywords_valid {v : JSValue} (h : strListValidB v 5 = true) :
    validateKeywords v = asStrList v := by
  cases v with
  | arr xs =>
    have h' : xs.length ≤ 5 ∧ ∀ x ∈ xs, nonemptyStrB x = true := by
      simpa [strListValidB, List.all_eq_true] using h
    unfold validateKeywords
    show (xs.take 5).filterMap keepNonemptyStr = asStrList (JSValue.arr xs)
    rw [filterMap_take_of_valid h'.1 h'.2]
    rfl
  | null => exact Bool.noConfusion h
  | undefined => exact Bool.noConfusion h
  | bool b => exact Bool.noConfusion h
  | num n => exact Bool.noConfusion h
  | str s => exact Bool.noConfusion h
  | obj fs => exact Bool.noConfusion h

/-- On a schema-valid recommendation array, validateRecommendations is the
identity. -/
theorem validateRecommendations_valid {v : JSValue} (h : strListValidB v 5 = true) :
    validateRecommendations v = asStrList v := by
  cases v with
  | arr xs =>
    have h' : xs.length ≤ 5 ∧ ∀ x ∈ xs, nonemptyStrB x = true := by
      simpa [strListValidB, List.all_eq_true] using h
    unfold validateRecommendations
    show (xs.take 5).filterMap keepNonemptyStr = asStrList (JSValue.arr xs)
    rw [filterMap_take_of_valid h'.1 h'.2]
    rfl
  | null => exact Bool.noConfusion h
  | undefined => exact Bool.noConfusion h
  | bool b => exact Bool.noConfusion h
  | num n => exact Bool.noConfusion h
  | str s => exact Bool.noConfusion h
  | obj fs => exact Bool.noConfusion h

/-- On a schema-valid risk array, validateRiskFactors is the identity. -/
theorem validateRiskFactors_valid {v : JSValue} (h : strListValidB v 3 = true) :
    validateRiskFactors v = asStrList v := by
  cases v with
  | arr xs =>
    have h' : xs.length ≤ 3 ∧ ∀ x ∈ xs, nonemptyStrB x = true := by
      simpa [strListValidB, List.all_eq_true] using h
    unfold validateRiskFactors
    show (xs.take 3).filterMap keepNonemptyStr = asStrList (JSValue.arr xs)
    rw [filterMap_take_of_valid h'.1 h'.2]
    rfl
  | null => exact Bool.noConfusion h
  | undefined => exact Bool.noConfusion h
  | bool b => exact Bool.noConfusion h
  | num n => exact Bool.noConfusion h
  | str s => exact Bool.noConfusion h
  | obj fs => exact Bool.noConfusion h

/-- On a schema-valid opportunity array, validateOpportunities is the
identity. -/
theorem validateOpportunities_valid {v : JSValue} (h : strListValidB v 3 = true) :
    validateOpportunities v = asStrList v := by
  cases v with
  | arr xs =>
    have h' : xs.length ≤ 3 ∧ ∀ x ∈ xs, nonemptyStrB x = true := by
      simpa [strListValidB, List.all_eq_true] using h
    unfold validateOpportunities
    show (xs.take 3).filterMap keepNonemptyStr = asStrList (JSValue.arr xs)
    rw [filterMap_take_of_valid h'.1 h'.2]
    rfl
  | null => exact Bool.noConfusion h
  | undefined => exact Bool.noConfusion h
  | bool b => exact Bool.noConfusion h
  | num n => exact Bool.noConfusion h
  | str s => exact Bool.noConfusion h
  | obj fs => exact Bool.noConfusion h

/-- On a non-empty quote within 150 characters, validateQuote is the
identity. -/
theorem validateQuote_valid {v : JSValue} (h : quoteValidB v = true)
    (influencer brand : String) :
    validateQuote v influencer brand = asStr v := by
  cases v with
  | str s =>
    have h' : s.isEmpty = false ∧ s.length ≤ 150 := by
      have h2 : (!s.isEmpty && decide (s.length ≤ 150)) = true := h
      rw [Bool.and_eq_true] at h2
      constructor
      · cases he : s.isEmpty with
        | false => rfl
        | true =>
          have h3 := h2.1
          rw [he] at h3
          exact Bool.noConfusion h3
      · exact of_decide_eq_true h2.2
    unfold validateQuote
    show (if s.isEmpty = true then defaultQuote influencer brand
        else if 150 < s.length then strTake s 147 ++ "..." else s) = asStr (JSValue.str s)
    rw [if_neg (by rw [h'.1]; exact Bool.noConfusion)]
    rw [if_neg (by omega)]
    rfl
  | null => exact Bool.noConfusion h
  | undefined => exact Bool.noConfusion h
  | bool b => exact Bool.noConfusion h
  | num n => exact Bool.noConfusion h
  | arr xs => exact Bool.noConfusion h
  | obj fs => exact Bool.noConfusion h

/-- On a non-empty insights string, validateEngagementInsights is the
identity. -/
theorem validateEngagementInsights_valid {v : JSValue} (h : nonemptyStrB v = true) :
    validateEngagementInsights v = asStr v := by
  cases v with
  | str s =>
    have h' : s.isEmpty = false := by
      cases he : s.isEmpty with
      | false => rfl
      | true =>
        have h2 : (!s.isEmpty) = true := h
        rw [he] at h2
        exact Bool.noConfusion h2
    unfold validateEngagementInsights
    show (if s.isEmpty = true then defaultInsights else s) = asStr (JSValue.str s)
    rw [if_neg (by rw [h']; exact Bool.noConfusion)]
    rfl
  | null => exact Bool.noConfusion h
  | undefined => exact Bool.noConfusion h
  | bool b => exact Bool.noConfusion h
  | num n => exact Bool.noConfusion h
  | arr xs => exact Bool.noConfusion h
  | obj fs => exact Bool.noConfusion h

/-- On a schema-valid item, the per-item defaulting changes nothing. -/
theorem itemToContent_valid {x : JSValue} (h : itemValidB x = true) :
    itemToContent x = some (readItem x) := by
  cases x with
  | obj fs =>
    have h' : (match (JSValue.obj fs).get kPostIndex with
          | JSValue.num n => decide (1 ≤ n)
          | _ => false) = true
        ∧ sentValidB ((JSValue.obj fs).get kSentiment) = true
        ∧ isStrB ((JSValue.obj fs).get kAiComment) = true
        ∧ (match (JSValue.obj fs).get kBrandMention with
          | JSValue.bool _ => true
          | _ => false) = true := by
      simpa [itemValidB, Bool.and_eq_true, and_assoc] using h
    obtain ⟨h1, h2, h3, h4⟩ := h'
    have e1 : jsOr ((JSValue.obj fs).get kPostIndex) (JSValue.num 1)
        = (JSValue.obj fs).get kPostIndex := by
      cases hpi : (JSValue.obj fs).get kPostIndex with
      | num n =>
        rw [hpi] at h1
        have hn : 1 ≤ n := by simpa using h1
        unfold jsOr
        rw [if_pos (by show (n != 0) = true; simp; omega)]
      | null => rw [hpi] at h1; exact Bool.noConfusion h1
      | undefined => rw [hpi] at h1; exact Bool.noConfusion h1
      | bool b => rw [hpi] at h1; exact Bool.noConfusion h1
      | str s => rw [hpi] at h1; exact Bool.noConfusion h1
      | arr xs => rw [hpi] at h1; exact Bool.noConfusion h1
      | obj gs => rw [hpi] at h1; exact Bool.noConfusion h1
    have e2 : validateSentiment ((JSValue.obj fs).get kSentiment)
        = asStr ((JSValue.obj fs).get kSentiment) := validateSentiment_valid h2
    have e3 : (match (JSValue.obj fs).get kAiComment with
          | JSValue.str s => s
          | _ => "Standard engagement post") = asStr ((JSValue.obj fs).get kAiComment) := by
      cases hc : (JSValue.obj fs).get kAiComment with
      | str t => rfl
      | null => rw [hc] at h3; exact Bool.noConfusion h3
      | undefined => rw [hc] at h3; exact Bool.noConfusion h3
      | bool b => rw [hc] at h3; exact Bool.noConfusion h3
      | num n => rw [hc] at h3; exact Bool.noConfusion h3
      | arr xs => rw [hc] at h3; exact Bool.noConfusion h3
      | obj gs => rw [hc] at h3; exact Bool.noConfusion h3
    have e4 : ((JSValue.obj fs).get kBrandMention).truthy
        = asBool ((JSValue.obj fs).get kBrandMention) := by
      cases hb : (JSValue.obj fs).get kBrandMention with
      | bool b => rfl
      | null => rw [hb] at h4; exact Bool.noConfusion h4
      | undefined => rw [hb] at h4; exact Bool.noConfusion h4
      | num n => rw [hb] at h4; exact Bool.noConfusion h4
      | str s => rw [hb] at h4; exact Bool.noConfusion h4
      | arr xs => rw [hb] at h4; exact Bool.noConfusion h4
      | obj gs => rw [hb] at h4; exact Bool.noConfusion h4
    show some
        { postIndex := jsOr ((JSValue.obj fs).get kPostIndex) (JSValue.num 1)
          sentiment := validateSentiment ((JSValue.obj fs).get kSentiment)
          aiComment :=
            match (JSValue.obj fs).get kAiComment with
            | JSValue.str s => s
            | _ => "Standard engagement post"
          brandMention := ((JSValue.obj fs).get kBrandMention).truthy }
      = some (readItem (JSValue.obj fs))
    unfold readItem
    rw [e1, e2, e3, e4]
  | null => exact Bool.noConfusion h
  | undefined => exact Bool.noConfusion h
  | bool b => exact Bool.noConfusion h
  | num n => exact Bool.noConfusion h
  | str s => exact Bool.noConfusion h
  | arr xs => exact Bool.noConfusion h

/-- On a list of schema-valid items, the per-item defaulting map succeeds
and changes nothing. -/
theorem validateItems_valid {xs : List JSValue} (h : ∀ x ∈ xs, itemValidB x = true) :
    validateItems xs = some (xs.map readItem) := by
  induction xs with
  | nil => rfl
  | cons x xs ih =>
    unfold validateItems
    rw [itemToContent_valid (h x (List.mem_cons_self x xs)),
      ih (fun y hy => h y (List.mem_cons_of_mem x hy))]
    rfl

/-- On a schema-valid object the whole normalizer body is the raw field
reading. -/
theorem buildAnalysis_valid (o : JSValue) (brand influencer : String)
    (h : specSchemaValid o = true) :
    validateContentAnalysis (o.get kContentAnalysis)
        = some (asItems (o.get kContentAnalysis)) ∧
      buildAnalysis o (asItems (o.get kContentAnalysis)) brand influencer = readAnalysis o := by
  cases o with
  | obj fs =>
    have h' : sentValidB ((JSValue.obj fs).get kOverallSentiment) = true
        ∧ scoreValidB ((JSValue.obj fs).get kSentimentScore) = true
        ∧ alignValidB ((JSValue.obj fs).get kBrandAlignment) = true
        ∧ strListValidB ((JSValue.obj fs).get kTopKeywords) 5 = true
        ∧ quoteValidB ((JSValue.obj fs).get kAiQuote) = true
        ∧ (match (JSValue.obj fs).get kContentAnalysis with
           | JSValue.arr xs => xs.all itemValidB
           | _ => false) = true
        ∧ strListValidB ((JSValue.obj fs).get kRecommendations) 5 = true
        ∧ strListValidB ((JSValue.obj fs).get kRiskFactors) 3 = true
        ∧ strListValidB ((JSValue.obj fs).get kOpportunities) 3 = true
        ∧ nonemptyStrB ((JSValue.obj fs).get kEngagementInsights) = true := by
      simpa [specSchemaValid, Bool.and_eq_true, and_assoc] using h
    obtain ⟨hs, hsc, hal, hkw, hq, hca, hrec, hrisk, hopp, hins⟩ := h'
    have hcaEq : validateContentAnalysis ((JSValue.obj fs).get kContentAnalysis)
        = some (asItems ((JSValue.obj fs).get kContentAnalysis)) := by
      cases hcav : (JSValue.obj fs).get kContentAnalysis with
      | arr xs =>
        rw [hcav] at hca
        unfold validateContentAnalysis asItems
        exact validateItems_valid (List.all_eq_true.mp hca)
      | null => rw [hcav] at hca; exact Bool.noConfusion hca
      | undefined => rw [hcav] at hca; exact Bool.noConfusion hca
      | bool b => rw [hcav] at hca; exact Bool.noConfusion hca
      | num n => rw [hcav] at hca; exact Bool.noConfusion hca
      | str s => rw [hcav] at hca; exact Bool.noConfusion hca
      | obj gs => rw [hcav] at hca; exact Bool.noConfusion hca
    refine ⟨hcaEq, ?_⟩
    unfold buildAnalysis readAnalysis
    rw [validateSentiment_valid hs, validateScore_valid hsc, validateAlignment_valid hal,
      validateKeywords_valid hkw, validateQuote_valid hq,
      validateRecommendations_valid hrec, validateRiskFactors_valid hrisk,
      validateOpportunities_valid hopp, validateEngagementInsights_valid hins]
  | null => exact Bool.noConfusion h
  | undefined => exact Bool.noConfusion h
  | bool b => exact Bool.noConfusion h
  | num n => exact Bool.noConfusion h
  | str s => exact Bool.noConfusion h
  | arr xs => exact Bool.noConfusion h

/-- C7 (amended): whenever extraction and JSON.parse yield a schema-valid
object, the utils/aiService.js normalizer returns exactly the parsed
fields, unchanged field-for-field; the config/ai.js duplicate breaks this
on the valid score 0, which it replaces with 50. -/
theorem claim_C7 (s brand influencer j : String) (o : JSValue)
    (hj : extractJson s = some j) (ho : jsonParse j = some o)
    (hv : specSchemaValid o = true) :
    parseAIResponse s brand influencer = Except.ok (readAnalysis o) := by
  obtain ⟨hca, hbuild⟩ := buildAnalysis_valid o brand influencer hv
  unfold parseAIResponse
  simp only [hj, ho, hca]
  rw [hbuild]

/-- A complete schema-valid analysis response text. -/
def sampleValidResponse : String :=
  "\x7b\"overallSentiment\":\"Positive\",\"sentimentScore\":88,\"brandAlignment\":\"Aligned\",\"topKeywords\":[\"style\",\"energy\"],\"aiQuote\":\"Great fit for the brand.\",\"contentAnalysis\":[\x7b\"postIndex\":1,\"sentiment\":\"Positive\",\"aiComment\":\"On message\",\"brandMention\":true\x7d],\"recommendations\":[\"Keep going\"],\"riskFactors\":[],\"opportunities\":[\"New formats\"],\"engagementInsights\":\"Strong pull\"\x7d"

/-- The value JSON.parse yields for sampleValidResponse. -/
def sampleValidObj : JSValue :=
  JSValue.obj
    [(kOverallSentiment, JSValue.str "Positive"),
     (kSentimentScore, JSValue.num 88),
     (kBrandAlignment, JSValue.str "Aligned"),
     (kTopKeywords, JSValue.arr [JSValue.str "style", JSValue.str "energy"]),
     (kAiQuote, JSValue.str "Great fit for the brand."),
     (kContentAnalysis, JSValue.arr
       [JSValue.obj
         [(kPostIndex, JSValue.num 1),
          (kSentiment, JSValue.str "Positive"),
          (kAiComment, JSValue.str "On message"),
          (kBrandMention, JSValue.bool true)]]),
     (kRecommendations, JSValue.arr [JSValue.str "Keep going"]),
     (kRiskFactors, JSValue.arr []),
     (kOpportunities, JSValue.arr [JSValue.str "New formats"]),
     (kEngagementInsights, JSValue.str "Strong pull")]

set_option maxRecDepth 100000 in
/-- Witness for C7 at a concrete schema-valid response. -/
theorem claim_C7_witness :
    specSchemaValid sampleValidObj = true ∧
      parseAIResponse sampleValidResponse "nike" "techguru"
        = Except.ok (readAnalysis sampleValidObj) :=
  ⟨by decide,
   claim_C7 sampleValidResponse "nike" "techguru" sampleValidResponse sampleValidObj
     rfl rfl (by decide)⟩

/-- A schema-valid response whose sentimentScore is the boundary value 0. -/
def sampleScoreZeroResponse : String :=
  "\x7b\"overallSentiment\":\"Positive\",\"sentimentScore\":0,\"brandAlignment\":\"Aligned\",\"topKeywords\":[\"style\"],\"aiQuote\":\"Fine.\",\"contentAnalysis\":[\x7b\"postIndex\":1,\"sentiment\":\"Positive\",\"aiComment\":\"ok\",\"brandMention\":true\x7d],\"recommendations\":[\"Keep going\"],\"riskFactors\":[],\"opportunities\":[],\"engagementInsights\":\"Solid\"\x7d"

/-- The value JSON.parse yields for sampleScoreZeroResponse. -/
def sampleScoreZeroObj : JSValue :=
  JSValue.obj
    [(kOverallSentiment, JSValue.str "Positive"),
     (kSentimentScore, JSValue.num 0),
     (kBrandAlignment, JSValue.str "Aligned"),
     (kTopKeywords, JSValue.arr [JSValue.str "style"]),
     (kAiQuote, JSValue.str "Fine."),
     (kContentAnalysis, JSValue.arr
       [JSValue.obj
         [(kPostIndex, JSValue.num 1),
          (kSentiment, JSValue.str "Positive"),
          (kAiComment, JSValue.str "ok"),
          (kBrandMention, JSValue.bool true)]]),
     (kRecommendations, JSValue.arr [JSValue.str "Keep going"]),
     (kRiskFactors, JSValue.arr []),
     (kOpportunities, JSValue.arr []),
     (kEngagementInsights, JSValue.str "Solid")]

set_option maxRecDepth 100000 in
/-- C7 counterexample: on a schema-valid response with score 0, the
config/ai.js normalizer returns 50, not the parsed field. -/
theorem claim_C7_cex :
    specSchemaValid sampleScoreZeroObj = true ∧
      jsonParse sampleScoreZeroResponse = some sampleScoreZeroObj ∧
      asNum (sampleScoreZeroObj.get kSentimentScore) = 0 ∧
      (parseAIResponse3 sampleScoreZeroResponse "nike" "techguru").map
          (fun a => a.sentimentScore)
        = some (some 50) ∧
      (some (50 : Int) : Option Int) ≠ some (0 : Int) := by
  exact ⟨by decide, rfl, rfl, rfl, by decide⟩

end AgenticAI
